import Mathlib

set_option maxHeartbeats 1000000
set_option maxRecDepth 10000

/-!
Shallow embedding of the wasm text-format front end:
the lexer of src/ast/lex.go with the token model of src/ast/tokens.go,
and the recursive-descent parser of src/ast/parse.go.

Modelling conventions:
* a rune stream is a `List Char`; `eof` is represented by running off the
  end of the list (option-valued peeks);
* Go panics (parser `expect`/`panic`, slice index out of range, `unread`
  at position 0) are modelled as `Except.error` with a message;
* the lexer's state-function trampoline is modelled with an explicit fuel
  counter that is decremented once per `lexAny` dispatch cycle; a
  sufficiency theorem (`lexAnyF_isSome`) shows `length + 1` fuel always
  terminates the machine, so `lex` below is total exactly like the Go code;
* the Go `unicode.IsLetter`/`IsDigit` classes used only in
  `isAlphaNumeric` are modelled by their ASCII fragments, the only part the
  token alphabets can reach;
* `strconv.Unquote` and `strconv.Atoi`, Go standard library functions not
  part of this repository, are modelled from their documented behaviour
  for the inputs this grammar can produce (double-quoted strings, decimal
  integers).
-/

namespace Wasm

/-- Token kind enumeration mirroring the `tokenType` constants of
src/ast/tokens.go. The Go begin/end sentinel markers delimiting ordinal
ranges are not represented: the parser only ever tests kinds for equality
or membership in the explicit value-type set {F32, F64, I32, I64}. -/
inductive TokType where
  | ERROR
  | DOT | EQUAL | LPAREN | RPAREN | SLASH | UNDERSCORE
  | NAME | NUMBER | STRING
  | F32 | F64 | I32 | I64
  | ANYFUNC
  | CLZ | CTZ | EQZ | POPCNT
  | ADD | AND | DIV | MUL | OR | REM | ROTL | ROTR | SHL | SHR | SUB | XOR
  | EQ | GE | GT | LE | LT | NE
  | S | U
  | CONVERT | DEMOTE | EXTEND | PROMOTE | REINTERPRET | TRUNC
  | ALIGN | OFFSET
  | BLOCK | IF | LOOP
  | ELSE | END | THEN
  | MUT
  | BR_IF | BR_TABLE | CALL | CALL_INDIRECT | CONST | CURRENT_MEMORY | DROP
  | GET_GLOBAL | GET_LOCAL | GROW_MEMORY | LOAD | NOP | RETURN | SELECT
  | SET_GLOBAL | SET_LOCAL | STORE | TEE_LOCAL | UNREACHABLE
  | DATA | ELEM | EXPORT | FUNC | GLOBAL | IMPORT | LOCAL | MEMORY | MODULE
  | PARAM | RESULT | START | TABLE | TYPE
  deriving DecidableEq, Repr

/-- A token: kind plus the exact source text (struct `token` in
src/ast/tokens.go). For ERROR tokens the text carries the diagnostic. -/
structure Tok where
  typ : TokType
  text : String
  deriving DecidableEq, Repr

/-- The zero value `token{}` of the Go struct: kind 0 (= ERROR), nil text. -/
def zeroTok : Tok := ⟨.ERROR, ""⟩

/-- Double-quote character, written numerically to keep literals simple. -/
def dqChar : Char := Char.ofNat 34

/-- Single-quote character. -/
def sqChar : Char := Char.ofNat 39

/-- Single-quote as a one-character string. -/
def sqStr : String := String.mk [sqChar]

/-- Double-quote as a one-character string. -/
def dqStr : String := String.mk [dqChar]

/-- Alphabet constant `digits` of src/ast/lex.go. -/
def digits : String := "0123456789"

/-- Alphabet constant `hexDigits` of src/ast/lex.go. -/
def hexDigits : String := "0123456789abcdefABCDEF"

/-- Alphabet constant `letters` of src/ast/lex.go, kept with its original
(slightly scrambled but complete) letter order. -/
def letters : String := "abcedfghijklmnopqrstuvwxyzABCEDFGHIJKLMNOPQRSTUVWXYZ"

/-- Alphabet constant `symbols` of src/ast/lex.go. -/
def symbols : String := "+-*/\\^~=<>!?@#$%&|:`."

/-- Alphabet constant `name` of src/ast/lex.go: letters, digits, symbols,
apostrophe and underscore. -/
def nameAlpha : String := letters ++ digits ++ symbols ++ sqStr ++ "_"

/-- Atom-scan alphabet used by `lexAtom`: letters, digits and underscore. -/
def atomAlpha : String := letters ++ digits ++ "_"

/-- Membership of a rune in an alphabet string (`containsRune` in
src/ast/lex.go; its eof case is handled at call sites by option matching). -/
def containsRune (s : String) (c : Char) : Bool := s.data.contains c

/-- The `isAlphaNumeric` predicate of src/ast/lex.go (underscore, letter or
digit; the Unicode classes restricted to their ASCII fragments). -/
def isAlphaNumeric (c : Char) : Bool := c == '_' || c.isAlpha || c.isDigit

/-- The reserved keyword table `atom` of src/ast/tokens.go as an
association list (the Go map has pairwise distinct keys, so lookup by
first match is equivalent). -/
def atom : List (String × TokType) := [
  ("i32", .I32), ("i64", .I64), ("f32", .F32), ("f64", .F64),
  ("anyfunc", .ANYFUNC),
  ("clz", .CLZ), ("ctz", .CTZ), ("eqz", .EQZ), ("popcnt", .POPCNT),
  ("add", .ADD), ("and", .AND), ("div", .DIV), ("mul", .MUL), ("or", .OR),
  ("rem", .REM), ("rotl", .ROTL), ("rotr", .ROTR), ("shl", .SHL),
  ("shr", .SHR), ("sub", .SUB), ("xor", .XOR),
  ("eq", .EQ), ("ge", .GE), ("gt", .GT), ("le", .LE), ("lt", .LT),
  ("ne", .NE),
  ("convert", .CONVERT), ("demote", .DEMOTE), ("extend", .EXTEND),
  ("promote", .PROMOTE), ("reinterpret", .REINTERPRET), ("trunc", .TRUNC),
  ("align", .ALIGN), ("mut", .MUT), ("offset", .OFFSET),
  ("block", .BLOCK), ("else", .ELSE), ("end", .END), ("if", .IF),
  ("loop", .LOOP), ("then", .THEN),
  ("br_if", .BR_IF), ("br_table", .BR_TABLE), ("call", .CALL),
  ("call_indirect", .CALL_INDIRECT), ("const", .CONST),
  ("current_memory", .CURRENT_MEMORY), ("drop", .DROP),
  ("get_global", .GET_GLOBAL), ("get_local", .GET_LOCAL),
  ("grow_memory", .GROW_MEMORY), ("load", .LOAD), ("nop", .NOP),
  ("return", .RETURN), ("select", .SELECT), ("set_global", .SET_GLOBAL),
  ("set_local", .SET_LOCAL), ("store", .STORE), ("tee_local", .TEE_LOCAL),
  ("unreachable", .UNREACHABLE),
  ("data", .DATA), ("elem", .ELEM), ("export", .EXPORT), ("func", .FUNC),
  ("global", .GLOBAL), ("import", .IMPORT), ("local", .LOCAL),
  ("memory", .MEMORY), ("module", .MODULE), ("param", .PARAM),
  ("result", .RESULT), ("start", .START), ("table", .TABLE),
  ("type", .TYPE)]

/-- Uppercase hexadecimal digit for a value below 16. -/
def hexDigitU (n : Nat) : Char :=
  if n < 10 then Char.ofNat (48 + n) else Char.ofNat (55 + n)

/-- Hexadecimal digit list of a natural number (16 digits of fuel is enough
for any code point). -/
def hexUpperAux : Nat → Nat → List Char
  | 0, _ => []
  | _ + 1, 0 => []
  | f + 1, n => hexUpperAux f (n / 16) ++ [hexDigitU (n % 16)]

/-- Hexadecimal rendering padded to at least four digits, as Go fmt
"%04X" does for rune code points. -/
def padHex4 (n : Nat) : String :=
  let ds := if n = 0 then ['0'] else hexUpperAux 16 n
  let ds := if ds.length < 4 then List.replicate (4 - ds.length) '0' ++ ds else ds
  String.mk ds

/-- Go fmt verb `%#U` applied to a rune (or to eof, where the Go code
formats the rune value -1): code point, then the character itself when it
is printable (modelled by the ASCII printable range, the only characters
the diagnostics of this lexer can reach). -/
def goFmtRune : Option Char → String
  | none => "U+FFFFFFFFFFFFFFFF"
  | some c =>
    "U+" ++ padHex4 c.toNat ++
      (if 0x20 ≤ c.toNat ∧ c.toNat ≤ 0x7e then " " ++ sqStr ++ c.toString ++ sqStr else "")

/-- Diagnostic of lexAny's default branch. -/
def msgUnexpectedChar (r : Option Char) : String :=
  "unexpected character: " ++ goFmtRune r

/-- Diagnostic of lexRightDelim (the %q-quoted expected set rendered as Go
prints it). -/
def msgDelim (r : Option Char) : String :=
  "unexpected character " ++ goFmtRune r ++ ", expected one of " ++
    dqStr ++ " \\\\n\\\\t()" ++ dqStr

/-- Diagnostic of an unterminated string literal. -/
def msgUnclosed : String := "unclosed string literal"

/-- Diagnostic of an illegal string escape (the formatted rune is always
the backslash that introduced the escape). -/
def msgIllegalEscape : String :=
  "illegal escape in string literal: " ++ goFmtRune (some '\\')

/-- Diagnostic of a raw control character inside a string literal. -/
def msgCtl (c : Char) : String :=
  "illegal control character in string literal: " ++ goFmtRune (some c)

/-- Diagnostic of an unrecognized atom. -/
def msgUnexpectedTok (s : String) : String := "unexpected token: " ++ s

/-- Diagnostic of a bad first character in a name literal. -/
def msgName (r : Option Char) : String :=
  "unexpected character in name literal: " ++ goFmtRune r

/-- Diagnostic of a malformed number literal. -/
def msgNumber (r : Option Char) : String :=
  "unexpected character in number literal: " ++ goFmtRune r

/-- Error token as produced by `errorf` in src/ast/lex.go. -/
def errTok (msg : String) : Tok := ⟨.ERROR, msg⟩

/-- A lexer continuation: what the state machine does after the current
state function returns to the `lexAny` dispatch loop. Instantiated with
`lexAnyF fuel` below. -/
abbrev LexCont := List Char → List Tok → Option (List Tok)

/-- The escape characters accepted directly after a backslash
(`nt\'"` in lexString). -/
def escAlpha : String := "nt\\" ++ sqStr ++ dqStr

/-- The right-delimiter character set of lexRightDelim. -/
def delimAlpha : String := " \n\t()"

/-- lexRightDelim of src/ast/lex.go: after a name, string or number token
the next character must be a space, newline, tab, parenthesis or eof; the
accepted delimiter is unread again, so the continuation sees it. -/
def afterDelimF (k : LexCont) (cs : List Char) (toks : List Tok) : Option (List Tok) :=
  match cs with
  | [] => k [] toks
  | c :: _ =>
    if containsRune delimAlpha c then k cs toks
    else some (toks ++ [errTok (msgDelim (some c))])

/-- lexString of src/ast/lex.go. `pend` is the pending token text
(starting with the opening quote). A backslash must be followed by one of
the escape characters or by two hex digits; a newline or eof ends with
"unclosed string literal"; raw control characters are rejected. -/
def lexStringF (k : LexCont) (pend : List Char) (cs : List Char) (toks : List Tok) :
    Option (List Tok) :=
  match cs with
  | [] => some (toks ++ [errTok msgUnclosed])
  | c :: rest =>
    if c = dqChar then
      afterDelimF k rest (toks ++ [⟨.STRING, String.mk (pend ++ [c])⟩])
    else if c = '\\' then
      match rest with
      | [] => some (toks ++ [errTok msgIllegalEscape])
      | e :: rest2 =>
        if containsRune escAlpha e then lexStringF k (pend ++ [c, e]) rest2 toks
        else if containsRune hexDigits e then
          match rest2 with
          | [] => some (toks ++ [errTok msgIllegalEscape])
          | h2 :: rest3 =>
            if containsRune hexDigits h2 then
              lexStringF k (pend ++ [c, e, h2]) rest3 toks
            else some (toks ++ [errTok msgIllegalEscape])
        else some (toks ++ [errTok msgIllegalEscape])
    else if c = '\n' then some (toks ++ [errTok msgUnclosed])
    else if c.toNat ≤ 0x1f ∨ c.toNat = 0x7f then some (toks ++ [errTok (msgCtl c)])
    else lexStringF k (pend ++ [c]) rest toks

/-- lexName of src/ast/lex.go: the `$` has been scanned; at least one name
character must follow, then a maximal run; the text keeps the `$` prefix;
a right-delimiter check follows. -/
def lexNameF (k : LexCont) (cs : List Char) (toks : List Tok) : Option (List Tok) :=
  match cs with
  | [] => some (toks ++ [errTok (msgName none)])
  | c :: rest =>
    if containsRune nameAlpha c then
      afterDelimF k (rest.dropWhile (containsRune nameAlpha))
        (toks ++ [⟨.NAME, String.mk ('$' :: c :: rest.takeWhile (containsRune nameAlpha))⟩])
    else some (toks ++ [errTok (msgName (some c))])

/-- Suffix test on character lists (`bytes.HasSuffix`; kept on lists so
the kernel can evaluate it). -/
def hasSuffixL (l suffix : List Char) : Bool := suffix.isSuffixOf l

/-- Drop the last `n` characters (`bytes.TrimSuffix` once the suffix has
been checked). -/
def dropLastN (l : List Char) (n : Nat) : List Char := l.take (l.length - n)

/-- lexAtom of src/ast/lex.go: the first letter has been scanned; a
maximal run of letters, digits and underscores follows. A `_s`/`_u`
suffix whose prefix is a keyword splits into three tokens; otherwise the
whole run must be a keyword. -/
def lexAtomF (k : LexCont) (first : Char) (cs : List Char) (toks : List Tok) :
    Option (List Tok) :=
  let rest := cs.dropWhile (containsRune atomAlpha)
  let run : List Char := first :: cs.takeWhile (containsRune atomAlpha)
  let s : String := String.mk run
  if hasSuffixL run ['_', 's'] then
    match atom.lookup (String.mk (dropLastN run 2)) with
    | some typ =>
      k rest (toks ++ [⟨typ, String.mk (dropLastN run 2)⟩, ⟨.UNDERSCORE, "_"⟩, ⟨.S, "s"⟩])
    | none => some (toks ++ [errTok (msgUnexpectedTok s)])
  else if hasSuffixL run ['_', 'u'] then
    match atom.lookup (String.mk (dropLastN run 2)) with
    | some typ =>
      k rest (toks ++ [⟨typ, String.mk (dropLastN run 2)⟩, ⟨.UNDERSCORE, "_"⟩, ⟨.U, "u"⟩])
    | none => some (toks ++ [errTok (msgUnexpectedTok s)])
  else
    match atom.lookup s with
    | some typ => k rest (toks ++ [⟨typ, s⟩])
    | none => some (toks ++ [errTok (msgUnexpectedTok s)])

/-- The lexer's `accept`: consume the next rune if it lies in the valid
set, returning the consumed runes (none or one) and the remainder. -/
def acceptL (valid : String) (cs : List Char) : List Char × List Char :=
  match cs with
  | c :: rest => if containsRune valid c then ([c], rest) else ([], c :: rest)
  | [] => ([], [])

/-- scanNumber of src/ast/lex.go: optional sign; `0x`/`0X` switches the
digit alphabet to hexadecimal; digit run; optional `.` and another run in
the same alphabet; optional `e`/`E` exponent with optional sign and a
decimal digit run. Returns the consumed text, the remainder, and whether
the character after the literal is non-alphanumeric (the Go boolean). -/
def scanNum (cs : List Char) : (List Char × List Char) × Bool :=
  let a1 := acceptL "+-" cs
  let a2 := acceptL "0" a1.2
  let a3 := if a2.1.isEmpty then (([] : List Char), a2.2) else acceptL "xX" a2.2
  let d := if a3.1.isEmpty then digits else hexDigits
  let run1 := a3.2.takeWhile (containsRune d)
  let r4 := a3.2.dropWhile (containsRune d)
  let a5 := acceptL "." r4
  let run2 := if a5.1.isEmpty then ([] : List Char) else a5.2.takeWhile (containsRune d)
  let r6 := if a5.1.isEmpty then a5.2 else a5.2.dropWhile (containsRune d)
  let a7 := acceptL "eE" r6
  let a8 := if a7.1.isEmpty then (([] : List Char), a7.2) else acceptL "+-" a7.2
  let run3 := if a7.1.isEmpty then ([] : List Char) else a8.2.takeWhile (containsRune digits)
  let r9 := if a7.1.isEmpty then a8.2 else a8.2.dropWhile (containsRune digits)
  let text := a1.1 ++ a2.1 ++ a3.1 ++ run1 ++ a5.1 ++ run2 ++ a7.1 ++ a8.1 ++ run3
  let ok := match r9.head? with
            | some c2 => !(isAlphaNumeric c2)
            | none => true
  ((text, r9), ok)

/-- lexNumber of src/ast/lex.go: run the number scanner; emit a NUMBER
token and check the right delimiter, or report the offending character. -/
def lexNumberF (k : LexCont) (cs : List Char) (toks : List Tok) : Option (List Tok) :=
  let r := scanNum cs
  if r.2 then afterDelimF k r.1.2 (toks ++ [⟨.NUMBER, String.mk r.1.1⟩])
  else some (toks ++ [errTok (msgNumber r.1.2.head?)])

/-- lexAny of src/ast/lex.go driven by the lex loop: discard a run of
spaces and tabs, then dispatch on the next rune, in the source's case
order. `fuel` counts dispatch cycles; one character is consumed per cycle,
so `length + 1` fuel suffices (theorem `lexAnyF_isSome`). -/
def lexAnyF : Nat → List Char → List Tok → Option (List Tok)
  | 0, _, _ => none
  | fuel + 1, cs0, toks =>
    match cs0.dropWhile (containsRune "\t ") with
    | [] => some toks
    | c :: rest =>
      if containsRune letters c then lexAtomF (lexAnyF fuel) c rest toks
      else if c = '(' then lexAnyF fuel rest (toks ++ [⟨.LPAREN, "("⟩])
      else if c = ')' then lexAnyF fuel rest (toks ++ [⟨.RPAREN, ")"⟩])
      else if c = '_' then lexAnyF fuel rest (toks ++ [⟨.UNDERSCORE, "_"⟩])
      else if c = '=' then lexAnyF fuel rest (toks ++ [⟨.EQUAL, "="⟩])
      else if c = '/' then lexAnyF fuel rest (toks ++ [⟨.SLASH, "/"⟩])
      else if c = '.' then lexAnyF fuel rest (toks ++ [⟨.DOT, "."⟩])
      else if c = '$' then lexNameF (lexAnyF fuel) rest toks
      else if c = dqChar then lexStringF (lexAnyF fuel) [c] rest toks
      else if c = '+' ∨ c = '-' ∨ ('0' ≤ c ∧ c ≤ '9') then
        lexNumberF (lexAnyF fuel) (c :: rest) toks
      else if c = '\n' then lexAnyF fuel rest toks
      else some (toks ++ [errTok (msgUnexpectedChar (some c))])

/-- The lex entry point of src/ast/lex.go (pure character input never
produces a non-eof read error, so the `([]token, error)` pair always has a
nil error and is modelled by the token list alone). -/
def lex (cs : List Char) : List Tok := (lexAnyF (cs.length + 1) cs []).getD []

/-- Lexing a Lean string (convenience wrapper over `lex`). -/
def lexStr (s : String) : List Tok := lex s.data










/-! ## Go standard library models -/

/-- Decimal digit run value (helper for the Atoi model). -/
def digitsVal (ds : List Char) : Int :=
  ds.foldl (fun acc d => acc * 10 + ((d.toNat - 48 : Nat) : Int)) 0

/-- Model of Go `strconv.Atoi`: optional sign followed by a non-empty run
of decimal digits; anything else is an error (`none`). The int64 range
check of the Go function is not modelled; no claim involves integers
anywhere near the boundary. -/
def goAtoi (s : String) : Option Int :=
  match s.data with
  | [] => none
  | c :: rest =>
    let sign : Int := if c = '-' then -1 else 1
    let ds := if c = '-' ∨ c = '+' then rest else c :: rest
    if ds.isEmpty then none
    else if ds.all Char.isDigit then some (sign * digitsVal ds)
    else none

/-- Value of a hexadecimal digit. -/
def hexVal (c : Char) : Nat :=
  if c.isDigit then c.toNat - 48
  else if 97 ≤ c.toNat ∧ c.toNat ≤ 102 then c.toNat - 87
  else if 65 ≤ c.toNat ∧ c.toNat ≤ 70 then c.toNat - 55
  else 0

/-- Hexadecimal digit test. -/
def isHexDigit (c : Char) : Bool := containsRune hexDigits c

/-- Octal digit test. -/
def isOctalDigit (c : Char) : Bool := 48 ≤ c.toNat && c.toNat ≤ 55

/-- Body of the `strconv.Unquote` model for a double-quoted string: Go's
`unquoteChar` applied repeatedly. A raw quote or newline is an error; a
backslash takes one of the Go escape forms — single-character escapes
(`\'` is an error inside a double-quoted string), `\xHH`, `\uHHHH`,
`\UHHHHHHHH`, or exactly three octal digits. Note the two-hex-digit
escape `\HH` accepted by this repository's lexer is NOT a Go escape form:
`unquoteChar` reads the first digit as the start of an octal escape and
fails unless two more octal digits follow. -/
def unquoteBody : List Char → Option (List Char)
  | [] => some []
  | c :: rest =>
    if c = dqChar then none
    else if c = '\n' then none
    else if c = '\\' then
      match rest with
      | [] => none
      | e :: rest2 =>
        if e = 'a' then (unquoteBody rest2).map (Char.ofNat 7 :: ·)
        else if e = 'b' then (unquoteBody rest2).map (Char.ofNat 8 :: ·)
        else if e = 'f' then (unquoteBody rest2).map (Char.ofNat 12 :: ·)
        else if e = 'n' then (unquoteBody rest2).map ('\n' :: ·)
        else if e = 'r' then (unquoteBody rest2).map (Char.ofNat 13 :: ·)
        else if e = 't' then (unquoteBody rest2).map ('\t' :: ·)
        else if e = 'v' then (unquoteBody rest2).map (Char.ofNat 11 :: ·)
        else if e = '\\' then (unquoteBody rest2).map ('\\' :: ·)
        else if e = dqChar then (unquoteBody rest2).map (dqChar :: ·)
        else if e = 'x' then
          match rest2 with
          | h1 :: h2 :: rest3 =>
            if isHexDigit h1 && isHexDigit h2 then
              (unquoteBody rest3).map (Char.ofNat (16 * hexVal h1 + hexVal h2) :: ·)
            else none
          | _ => none
        else if e = 'u' then
          match rest2 with
          | h1 :: h2 :: h3 :: h4 :: rest3 =>
            if [h1, h2, h3, h4].all isHexDigit then
              let v := ((16 * hexVal h1 + hexVal h2) * 16 + hexVal h3) * 16 + hexVal h4
              if v < 0xd800 ∨ 0xe000 ≤ v then (unquoteBody rest3).map (Char.ofNat v :: ·)
              else none
            else none
          | _ => none
        else if e = 'U' then
          match rest2 with
          | h1 :: h2 :: h3 :: h4 :: h5 :: h6 :: h7 :: h8 :: rest3 =>
            if [h1, h2, h3, h4, h5, h6, h7, h8].all isHexDigit then
              let v := [h2, h3, h4, h5, h6, h7, h8].foldl
                (fun acc h => 16 * acc + hexVal h) (hexVal h1)
              if v ≤ 0x10ffff ∧ (v < 0xd800 ∨ 0xe000 ≤ v) then
                (unquoteBody rest3).map (Char.ofNat v :: ·)
              else none
            else none
          | _ => none
        else if isOctalDigit e then
          match rest2 with
          | o2 :: o3 :: rest3 =>
            if isOctalDigit o2 && isOctalDigit o3 then
              let v := (8 * hexVal e + hexVal o2) * 8 + hexVal o3
              if v ≤ 255 then (unquoteBody rest3).map (Char.ofNat v :: ·) else none
            else none
          | _ => none
        else none
    else (unquoteBody rest).map (c :: ·)

/-- Model of Go `strconv.Unquote` on a double-quoted input (the only
shape this parser feeds it: STRING token text always carries both quote
characters). `none` models the error return, in which case the Go
function's string result is the empty string. -/
def unquote (s : String) : Option String :=
  match s.data with
  | [] => none
  | c :: rest =>
    if c = dqChar ∧ rest ≠ [] ∧ rest.getLast? = some dqChar then
      (unquoteBody rest.dropLast).map String.mk
    else none




/-! ## AST data model (src/unnamed/part_000 declarations: Module, TypeDef,
Func, EmbeddedExport, EmbeddedImport, Local, FuncSig, FuncSigType, Param,
Variable). Go pointer fields become `Option`, slices become `List`. -/

/-- Variable: reference by integer index or by name (both Go struct
fields kept; the parser sets exactly one of them, the other keeps its
zero value). -/
structure Variable where
  Index : Int
  Name : String
  deriving DecidableEq, Repr

/-- FuncSigType: the type-reference form of a function signature. -/
structure FuncSigType where
  Var : Variable
  deriving DecidableEq, Repr

/-- Param: optional name with its list of value types. -/
structure Param where
  Name : String
  Types : List TokType
  deriving DecidableEq, Repr

/-- Local: optional name with one value type. The Go field `Type` (a Lean
keyword) is rendered `Typ`. -/
structure Local where
  Name : String
  Typ : TokType
  deriving DecidableEq, Repr

/-- FuncSig. The Go field `Type` (a Lean keyword) is rendered `TypeRef`. -/
structure FuncSig where
  TypeRef : Option FuncSigType
  Params : List Param
  Results : List TokType
  deriving DecidableEq, Repr

/-- EmbeddedExport: inline export clause of a function. -/
structure EmbeddedExport where
  Name : String
  deriving DecidableEq, Repr

/-- EmbeddedImport: inline import clause of a function. -/
structure EmbeddedImport where
  Module : String
  Name : String
  deriving DecidableEq, Repr

/-- Func: name, signature, locals and at most one of the embedded
export/import descriptors. -/
structure Func where
  Name : String
  Signature : Option FuncSig
  Locals : List Local
  Export : Option EmbeddedExport
  Import : Option EmbeddedImport
  deriving DecidableEq, Repr

/-- TypeDef: optional name and one function signature. -/
structure TypeDef where
  Name : String
  Func : Option FuncSig
  deriving DecidableEq, Repr

/-- Module: root AST node. -/
structure Module where
  Name : String
  Types : List TypeDef
  Funcs : List Func
  deriving DecidableEq, Repr

/-! ## Parser (src/ast/parse.go) -/

/-- Parser state: the fully materialized token buffer and the cursor. -/
structure ParserSt where
  buf : List Tok
  pos : Nat
  deriving DecidableEq, Repr

/-- Panic message used to model Go `expect` aborts (the Go text formats
the expected kinds and the found token; only the fact of the panic is
observable to callers). -/
def msgExpectPanic : String := "parse panic: expected one of the valid kinds, found another token"

/-- Panic message of the malformed-module branch of parseModule. -/
def msgMalformed : String := "parse panic: malformed module"

/-- Go runtime panic raised by an out-of-range slice index. -/
def msgIndexRange : String := "runtime error: index out of range"

/-- Error used when a loop's fuel counter runs out. The fuel supplied by
the entry points below always exceeds the token count, and every parser
loop consumes at least one token per iteration, so this error is
unreachable from the entry points; it never coincides with a modelled Go
panic message. -/
def msgFuel : String := "model artifact: out of fuel"

/-- read of src/ast/parse.go: at the end of the buffer return the zero
token (still advancing the cursor); past the end the slice access
panics. -/
def ParserSt.read (p : ParserSt) : Except String (Tok × ParserSt) :=
  if p.pos = p.buf.length then .ok (zeroTok, ⟨p.buf, p.pos + 1⟩)
  else
    match p.buf[p.pos]? with
    | some t => .ok (t, ⟨p.buf, p.pos + 1⟩)
    | none => .error msgIndexRange

/-- peek of src/ast/parse.go, faithfully including its off-by-one: it
inspects `buf[pos+1]`, not `buf[pos]`, and that access panics whenever
`pos ≠ len(buf)` and `pos+1` is out of range. -/
def ParserSt.peek (p : ParserSt) : Except String Tok :=
  if p.pos = p.buf.length then .ok zeroTok
  else
    match p.buf[p.pos + 1]? with
    | some t => .ok t
    | none => .error msgIndexRange

/-- unread of src/ast/parse.go. -/
def ParserSt.unread (p : ParserSt) : Except String ParserSt :=
  if p.pos = 0 then .error "parse panic: unread at position 0"
  else .ok ⟨p.buf, p.pos - 1⟩

/-- unreadN of src/ast/parse.go. -/
def ParserSt.unreadN (p : ParserSt) (n : Nat) : Except String ParserSt :=
  if p.pos < n then .error "parse panic: unread at position 0"
  else .ok ⟨p.buf, p.pos - n⟩

/-- accept of src/ast/parse.go: consume the next token if its kind is in
the valid set; otherwise step back and report no match. -/
def ParserSt.accept (p : ParserSt) (valid : List TokType) :
    Except String (Option Tok × ParserSt) := do
  let (t, p1) ← p.read
  if t.typ ∈ valid then .ok (some t, p1)
  else do
    let p2 ← p1.unread
    .ok (none, p2)

/-- expect of src/ast/parse.go: consume the next token if its kind is in
the valid set, else panic. -/
def ParserSt.expect (p : ParserSt) (valid : List TokType) :
    Except String (Tok × ParserSt) := do
  let (t, p1) ← p.read
  if t.typ ∈ valid then .ok (t, p1)
  else .error msgExpectPanic

/-- Repeated unread used by a failed multi-token match. -/
def ParserSt.unreadTimes : Nat → ParserSt → Except String ParserSt
  | 0, p => .ok p
  | n + 1, p => do
    let p1 ← p.unread
    ParserSt.unreadTimes n p1

/-- Worker for match: on the i-th mismatch, unread the i+1 tokens read so
far. -/
def ParserSt.matchAux : ParserSt → List TokType → Nat → Except String (Bool × ParserSt)
  | p, [], _ => .ok (true, p)
  | p, k :: ks, i => do
    let (t, p1) ← p.read
    if t.typ = k then ParserSt.matchAux p1 ks (i + 1)
    else do
      let p2 ← ParserSt.unreadTimes (i + 1) p1
      .ok (false, p2)

/-- match of src/ast/parse.go: attempt to consume a fixed kind sequence;
rewind fully on mismatch. -/
def ParserSt.matchTok (p : ParserSt) (kinds : List TokType) :
    Except String (Bool × ParserSt) :=
  ParserSt.matchAux p kinds 0

/-- The value-type kind set used by acceptIsType / exceptIsType. -/
def typeKinds : List TokType := [.F32, .F64, .I32, .I64]

/-- acceptIsType of src/ast/parse.go. -/
def ParserSt.acceptIsType (p : ParserSt) : Except String (Option Tok × ParserSt) :=
  p.accept typeKinds

/-- exceptIsType of src/ast/parse.go (an `expect` over the value types). -/
def ParserSt.exceptIsType (p : ParserSt) : Except String (Tok × ParserSt) :=
  p.expect typeKinds

/-- extractName of src/ast/parse.go: strip a `$` prefix from the token
text (`bytes.TrimPrefix`). Its call sites only ever pass NAME tokens, so
the Go panic for other kinds is unreachable and not modelled. -/
def extractName (t : Tok) : String :=
  match t.text.data with
  | c :: rest => if c = '$' then String.mk rest else t.text
  | [] => t.text

/-- extractInteger of src/ast/parse.go: `strconv.Atoi` on the token text,
panicking on a non-NUMBER token or an Atoi error. -/
def extractInteger (t : Tok) : Except String Int :=
  if t.typ = .NUMBER then
    match goAtoi t.text with
    | some n => .ok n
    | none => .error "parse panic: Atoi error"
  else .error "parse panic: extractInteger on a non-NUMBER token"

/-- maybeName of src/ast/parse.go: optionally consume a NAME token and
yield the stripped name. -/
def ParserSt.maybeName (p : ParserSt) : Except String (Option String × ParserSt) := do
  let (r, p1) ← p.accept [.NAME]
  match r with
  | some t => .ok (some (extractName t), p1)
  | none => .ok (none, p1)

/-- parseVariable of src/ast/parse.go: a NAME yields a name reference,
a NUMBER an integer index. -/
def parseVariable (p : ParserSt) : Except String (Variable × ParserSt) := do
  let (v, p1) ← p.expect [.NAME, .NUMBER]
  if v.typ = .NAME then .ok (⟨0, extractName v⟩, p1)
  else do
    let n ← extractInteger v
    .ok (⟨n, ""⟩, p1)

/-- The inner type-accumulating loop of parseLocalList. In the Go source
its slice shadows the outer `locals` variable, so everything it gathers
is discarded when the loop ends. -/
def localInner : Nat → List Local → ParserSt → Except String (List Local × ParserSt)
  | 0, _, _ => .error msgFuel
  | fuel + 1, acc, p => do
    let (r, p1) ← p.acceptIsType
    match r with
    | none => .ok (acc, p1)
    | some t => localInner fuel (acc ++ [⟨"", t.typ⟩]) p1

/-- The `for p.match(LPAREN, LOCAL)` loop of parseLocalList. A named
local returns immediately with a singleton list; an unnamed clause feeds
the shadowed inner slice, whose contents are dropped, and the outer
`locals` (never appended to) is returned when the loop exits. -/
def parseLocalListLoop : Nat → List Local → ParserSt → Except String (List Local × ParserSt)
  | 0, _, _ => .error msgFuel
  | fuel + 1, locals, p => do
    let (hit, p1) ← p.matchTok [.LPAREN, .LOCAL]
    if hit then do
      let (nm, p2) ← p1.accept [.NAME]
      match nm with
      | some nameTok => do
        let (t, p3) ← p2.exceptIsType
        .ok ([⟨extractName nameTok, t.typ⟩], p3)
      | none => do
        let (_shadowed, p3) ← localInner fuel [] p2
        parseLocalListLoop fuel locals p3
    else .ok (locals, p1)

/-- parseLocalList of src/ast/parse.go. -/
def parseLocalList (fuel : Nat) (p : ParserSt) : Except String (List Local × ParserSt) :=
  parseLocalListLoop fuel [] p

/-- The inner type-accumulating loop of parseParam. -/
def paramInner : Nat → List TokType → ParserSt → Except String (List TokType × ParserSt)
  | 0, _, _ => .error msgFuel
  | fuel + 1, acc, p => do
    let (r, p1) ← p.acceptIsType
    match r with
    | none => .ok (acc, p1)
    | some t => paramInner fuel (acc ++ [t.typ]) p1

/-- parseParam of src/ast/parse.go: expects its own `(` `param` prefix
(notably, parseParamList's loop condition has already consumed those two
tokens before calling it). The named form returns without consuming the
closing parenthesis; the unnamed form expects it. -/
def parseParam (fuel : Nat) (p : ParserSt) : Except String (Param × ParserSt) := do
  let (_, p1) ← p.expect [.LPAREN]
  let (_, p2) ← p1.expect [.PARAM]
  let (nm, p3) ← p2.accept [.NAME]
  match nm with
  | some nameTok => do
    let (t, p4) ← p3.exceptIsType
    .ok (⟨extractName nameTok, [t.typ]⟩, p4)
  | none => do
    let (types, p4) ← paramInner fuel [] p3
    let (_, p5) ← p4.expect [.RPAREN]
    .ok (⟨"", types⟩, p5)

/-- The `for p.match(LPAREN, PARAM)` loop of parseParamList. -/
def parseParamListLoop : Nat → List Param → ParserSt → Except String (List Param × ParserSt)
  | 0, _, _ => .error msgFuel
  | fuel + 1, params, p => do
    let (hit, p1) ← p.matchTok [.LPAREN, .PARAM]
    if hit then do
      let (pa, p2) ← parseParam fuel p1
      parseParamListLoop fuel (params ++ [pa]) p2
    else .ok (params, p1)

/-- parseParamList of src/ast/parse.go. -/
def parseParamList (fuel : Nat) (p : ParserSt) : Except String (List Param × ParserSt) :=
  parseParamListLoop fuel [] p

/-- parseResultList of src/ast/parse.go: each iteration consumes
`( result` and one value type (and not the closing parenthesis). -/
def parseResultListLoop : Nat → List TokType → ParserSt →
    Except String (List TokType × ParserSt)
  | 0, _, _ => .error msgFuel
  | fuel + 1, res, p => do
    let (hit, p1) ← p.matchTok [.LPAREN, .RESULT]
    if hit then do
      let (t, p2) ← p1.exceptIsType
      parseResultListLoop fuel (res ++ [t.typ]) p2
    else .ok (res, p1)

/-- parseResultList entry. -/
def parseResultList (fuel : Nat) (p : ParserSt) : Except String (List TokType × ParserSt) :=
  parseResultListLoop fuel [] p

/-- parseFuncSig of src/ast/parse.go: `( type <var> )` form (whose
closing parenthesis is not consumed), explicit `param*/result*` form
(reached by rewinding the two matched tokens), or the empty signature. -/
def parseFuncSig (fuel : Nat) (p : ParserSt) : Except String (FuncSig × ParserSt) := do
  let (hitT, p1) ← p.matchTok [.LPAREN, .TYPE]
  if hitT then do
    let (v, p2) ← parseVariable p1
    .ok ({ TypeRef := some ⟨v⟩, Params := [], Results := [] }, p2)
  else do
    let (hitP, p2) ← p1.matchTok [.LPAREN, .PARAM]
    let hr ← if hitP then pure ((true, p2) : Bool × ParserSt)
             else p2.matchTok [.LPAREN, .RESULT]
    if hr.1 then do
      let p3 ← hr.2.unreadN 2
      let (params, p4) ← parseParamList fuel p3
      let (results, p5) ← parseResultList fuel p4
      .ok ({ TypeRef := none, Params := params, Results := results }, p5)
    else .ok ({ TypeRef := none, Params := [], Results := [] }, hr.2)

/-- parseFunc of src/ast/parse.go: optional name; optional embedded
export or import clause (checked in that order); the signature; then —
for non-imported functions only — the locals and the function's own
closing parenthesis. An imported function returns right after its
signature. -/
def parseFunc (fuel : Nat) (p : ParserSt) : Except String (Func × ParserSt) := do
  let (nm, p1) ← p.maybeName
  let fnName := nm.getD ""
  let (hitE, p2) ← p1.matchTok [.LPAREN, .EXPORT]
  if hitE then do
    let (s, p3) ← p2.expect [.STRING]
    let expName := (unquote s.text).getD ""
    let (_, p4) ← p3.expect [.RPAREN]
    let (sig, p5) ← parseFuncSig fuel p4
    let (locals, p6) ← parseLocalList fuel p5
    let (_, p7) ← p6.expect [.RPAREN]
    .ok ({ Name := fnName, Signature := some sig, Locals := locals,
           Export := some ⟨expName⟩, Import := none }, p7)
  else do
    let (hitI, p2i) ← p2.matchTok [.LPAREN, .IMPORT]
    if hitI then do
      let (m, p3) ← p2i.expect [.STRING]
      let impMod := (unquote m.text).getD ""
      let (n, p4) ← p3.expect [.STRING]
      let impName := (unquote n.text).getD ""
      let (_, p5) ← p4.expect [.RPAREN]
      let (sig, p6) ← parseFuncSig fuel p5
      .ok ({ Name := fnName, Signature := some sig, Locals := [],
             Export := none, Import := some ⟨impMod, impName⟩ }, p6)
    else do
      let (sig, p3) ← parseFuncSig fuel p2i
      let (locals, p4) ← parseLocalList fuel p3
      let (_, p5) ← p4.expect [.RPAREN]
      .ok ({ Name := fnName, Signature := some sig, Locals := locals,
             Export := none, Import := none }, p5)

/-- parseTypeDef of src/ast/parse.go: `( type` has been read; optional
name, then `( func <funcsig>`; neither closing parenthesis is consumed
here. -/
def parseTypeDef (fuel : Nat) (p : ParserSt) : Except String (TypeDef × ParserSt) := do
  let (nm, p1) ← p.maybeName
  let (_, p2) ← p1.expect [.LPAREN]
  let (_, p3) ← p2.expect [.FUNC]
  let (sig, p4) ← parseFuncSig fuel p3
  .ok ({ Name := nm.getD "", Func := some sig }, p4)

/-- The dispatch loop of parseModule: typedefs and funcs in any order;
exit when peek (which reads `buf[pos+1]`) sees a RPAREN; anything else is
the malformed-module panic. -/
def parseModuleLoop : Nat → Module → ParserSt → Except String (Module × ParserSt)
  | 0, _, _ => .error msgFuel
  | fuel + 1, m, p => do
    let (hitT, p1) ← p.matchTok [.LPAREN, .TYPE]
    if hitT then do
      let (td, p2) ← parseTypeDef fuel p1
      parseModuleLoop fuel { m with Types := m.Types ++ [td] } p2
    else do
      let (hitF, p1f) ← p1.matchTok [.LPAREN, .FUNC]
      if hitF then do
        let (fn, p2) ← parseFunc fuel p1f
        parseModuleLoop fuel { m with Funcs := m.Funcs ++ [fn] } p2
      else do
        let t ← p1f.peek
        if t.typ = .RPAREN then .ok (m, p1f)
        else .error msgMalformed

/-- parseModule of src/ast/parse.go: `( module <name>?` then the loop. -/
def parseModule (fuel : Nat) (p : ParserSt) : Except String (Module × ParserSt) := do
  let (_, p1) ← p.expect [.LPAREN]
  let (_, p2) ← p1.expect [.MODULE]
  let (nm, p3) ← p2.maybeName
  parseModuleLoop fuel { Name := nm.getD "", Types := [], Funcs := [] } p3

/-- The parse entry point of src/ast/parse.go on a token buffer. The fuel
(token count plus two) bounds loop iterations; every loop consumes at
least one token per iteration, so it never runs out. The final parser
state is kept so that theorems can speak about the cursor position. -/
def parse (toks : List Tok) : Except String (Module × ParserSt) :=
  parseModule (toks.length + 2) ⟨toks, 0⟩

/-- The module produced by a successful parse. -/
def parseMod (toks : List Tok) : Option Module := (parse toks).toOption.map (·.1)

/-- The diagnostic of a failed parse (a modelled Go panic). -/
def parseErr (toks : List Tok) : Option String :=
  match parse toks with
  | .error e => some e
  | .ok _ => none

/-- Running parseFunc directly on a buffer that starts right after the
`( func` prefix, as parseFunc assumes. -/
def runParseFunc (toks : List Tok) : Except String (Func × ParserSt) :=
  parseFunc (toks.length + 2) ⟨toks, 0⟩

/-- Final cursor position of a successful parse. -/
def parsePos (toks : List Tok) : Option Nat := (parse toks).toOption.map (·.2.pos)

/-- The Func produced by a successful direct parseFunc run. -/
def runParseFuncMod (toks : List Tok) : Option Func :=
  (runParseFunc toks).toOption.map (·.1)

/-- The diagnostic of a failed direct parseFunc run. -/
def runParseFuncErr (toks : List Tok) : Option String :=
  match runParseFunc toks with
  | .error e => some e
  | .ok _ => none

/-- A token buffer that is a complete `(module)` followed by a stray
right parenthesis and a trailing ERROR sentinel token. -/
def c3buf : List Tok :=
  [⟨.LPAREN, "("⟩, ⟨.MODULE, "module"⟩, ⟨.RPAREN, ")"⟩, ⟨.RPAREN, ")"⟩,
   ⟨.ERROR, "some diagnostic"⟩]

/-- Well-formed scanned body of a string literal, as lexString consumes
it: plain characters (no quote, backslash, newline or control
character), single-character escapes, and two-hex-digit escapes. An
unterminated literal whose scanned part has this shape reaches the
newline/eof check without tripping the escape or control-character
errors. -/
inductive StringBody : List Char → Prop
  | nil : StringBody []
  | plain (c : Char) (rest : List Char) :
      c ≠ dqChar → c ≠ '\\' → c ≠ '\n' → ¬(c.toNat ≤ 0x1f ∨ c.toNat = 0x7f) →
      StringBody rest → StringBody (c :: rest)
  | esc1 (e : Char) (rest : List Char) :
      containsRune escAlpha e = true →
      StringBody rest → StringBody ('\\' :: e :: rest)
  | esc2 (h1 h2 : Char) (rest : List Char) :
      containsRune escAlpha h1 = false →
      containsRune hexDigits h1 = true → containsRune hexDigits h2 = true →
      StringBody rest → StringBody ('\\' :: h1 :: h2 :: rest)

/-- Token lists free of ERROR tokens. -/
def errFree (ts : List Tok) : Prop := ∀ t ∈ ts, t.typ ≠ .ERROR

/-- The shape claim C4 asserts of every lexer output: either no ERROR
token at all, or exactly one and it is the final element. -/
def Sane (ts : List Tok) : Prop :=
  errFree ts ∨ ∃ init e, ts = init ++ [e] ∧ e.typ = .ERROR ∧ errFree init

/-- Sane lifted over the optional result of a fuel-bounded lexer run. -/
def SaneO : Option (List Tok) → Prop
  | none => True
  | some ts => Sane ts

/-! ## Theorems -/

/-- Fidelity check against the repository's own lexer test table
(src/unnamed test data): structural tokens, strings, names, numbers,
atoms and compound-suffix splitting all lex as the Go tests record. -/
theorem lexer_matches_repo_tests :
    lexStr "  (\n   module \n)    " =
      [⟨.LPAREN, "("⟩, ⟨.MODULE, "module"⟩, ⟨.RPAREN, ")"⟩] ∧
    lexStr "$foo" = [⟨.NAME, "$foo"⟩] ∧
    lexStr " \"a b c \"" = [⟨.STRING, "\"a b c \""⟩] ∧
    lexStr " \"\\\\\\\"\"" = [⟨.STRING, "\"\\\\\\\"\""⟩] ∧
    lexStr " \"" = [⟨.ERROR, msgUnclosed⟩] ∧
    lexStr " \"\n" = [⟨.ERROR, msgUnclosed⟩] ∧
    lexStr "\"foo\" \"bar\"" = [⟨.STRING, "\"foo\""⟩, ⟨.STRING, "\"bar\""⟩] ∧
    lexStr "0123 123 -123 +123" =
      [⟨.NUMBER, "0123"⟩, ⟨.NUMBER, "123"⟩, ⟨.NUMBER, "-123"⟩, ⟨.NUMBER, "+123"⟩] ∧
    lexStr "0xaBc -0XaBc +0xaBc" =
      [⟨.NUMBER, "0xaBc"⟩, ⟨.NUMBER, "-0XaBc"⟩, ⟨.NUMBER, "+0xaBc"⟩] ∧
    lexStr "0. 0.123 -0.123 +0.123" =
      [⟨.NUMBER, "0."⟩, ⟨.NUMBER, "0.123"⟩, ⟨.NUMBER, "-0.123"⟩, ⟨.NUMBER, "+0.123"⟩] ∧
    lexStr "1.23e10 -1.23E-10 +1.23e+10 +1e+10 +1.e+10" =
      [⟨.NUMBER, "1.23e10"⟩, ⟨.NUMBER, "-1.23E-10"⟩, ⟨.NUMBER, "+1.23e+10"⟩,
       ⟨.NUMBER, "+1e+10"⟩, ⟨.NUMBER, "+1.e+10"⟩] ∧
    lexStr "0xabc.def 0xabc.defE2 0xabc.defe2" =
      [⟨.NUMBER, "0xabc.def"⟩, ⟨.NUMBER, "0xabc.defE2"⟩, ⟨.NUMBER, "0xabc.defe2"⟩] ∧
    lexStr "i32 anyfunc add rotl call_indirect" =
      [⟨.I32, "i32"⟩, ⟨.ANYFUNC, "anyfunc"⟩, ⟨.ADD, "add"⟩, ⟨.ROTL, "rotl"⟩,
       ⟨.CALL_INDIRECT, "call_indirect"⟩] ∧
    lexStr "offset=0x03 align=8 trunc_s i64.extend_s/i32" =
      [⟨.OFFSET, "offset"⟩, ⟨.EQUAL, "="⟩, ⟨.NUMBER, "0x03"⟩,
       ⟨.ALIGN, "align"⟩, ⟨.EQUAL, "="⟩, ⟨.NUMBER, "8"⟩,
       ⟨.TRUNC, "trunc"⟩, ⟨.UNDERSCORE, "_"⟩, ⟨.S, "s"⟩,
       ⟨.I64, "i64"⟩, ⟨.DOT, "."⟩, ⟨.EXTEND, "extend"⟩,
       ⟨.UNDERSCORE, "_"⟩, ⟨.S, "s"⟩, ⟨.SLASH, "/"⟩, ⟨.I32, "i32"⟩] := by
  decide

/-- C1: the spec claims that parseFunc on the token sequence of
`(func (import "env" "f") (param i32) (result i32))` (with the `( func`
prefix consumed) yields an imported Func with one unnamed i32 parameter
and one i32 result. The code instead panics: parseParamList's loop
condition `p.match(LPAREN, PARAM)` consumes the `( param` pair and then
parseParam's own `expect(LPAREN)` finds the I32 token, an unrecoverable
expect failure. -/
theorem c1_parseFunc_param_clause_panics :
    runParseFuncErr
        ((lexStr "(func (import \"env\" \"f\") (param i32) (result i32))").drop 2) =
      some msgExpectPanic := by decide

/-- C2: the spec claims parsing `(module)` yields the empty Module. The
code instead hits a runtime index-out-of-range panic: after consuming
`(` `module` the cursor is at position 2 of the 3-token buffer, and
parseModule's exit test calls peek, which reads `buf[pos+1] = buf[3]`
(contradicting peek's own doc comment, which promises the next token or
the zero value at EOF). -/
theorem c2_parse_empty_module_panics :
    lexStr "(module)" = [⟨.LPAREN, "("⟩, ⟨.MODULE, "module"⟩, ⟨.RPAREN, ")"⟩] ∧
    parseErr (lexStr "(module)") = some msgIndexRange := by decide

/-- C3 counterexample: a buffer that is `(module)` followed by a stray
right parenthesis and a trailing ERROR sentinel. parse succeeds on it,
returning the empty module with the cursor left at position 2 of 5 — the
buffer is not consumed, no failure is raised, and the unconsumed suffix
even contains the ERROR token, refuting both halves of the claim. -/
theorem c3_counterexample :
    c3buf.getLast?.map Tok.typ = some TokType.ERROR ∧
    parseMod c3buf = some { Name := "", Types := [], Funcs := [] } ∧
    parsePos c3buf = some 2 ∧
    c3buf.length = 5 := by decide

/-- C3 (amended): a dangling unmatched parenthesis — the buffer ending
right after `( module`, so that the module structure is never closed —
does make parse fail, with the malformed-module panic (peek returns the
zero token at EOF, which is not RPAREN). Success, however, does not imply
the buffer was consumed: parseModule returns as soon as its lookahead
sees a RPAREN (see the counterexample). -/
theorem c3_dangling_paren_panics :
    parseErr [⟨.LPAREN, "("⟩, ⟨.MODULE, "module"⟩] = some msgMalformed := by decide

/-- C5: parsing `(module $m (type (func (type 0))))` yields a Module
named `m` (the `$` stripped) with exactly one unnamed TypeDef whose
FuncSig is the type-reference form holding index 0, and no functions.
(The absent closing parentheses consumption and the off-by-one lookahead
happen to align on this input, so the parse succeeds as the spec says.) -/
theorem c5_module_with_typedef :
    parseMod (lexStr "(module $m (type (func (type 0))))") =
      some { Name := "m",
             Types := [{ Name := "",
                         Func := some { TypeRef := some ⟨⟨0, ""⟩⟩,
                                        Params := [], Results := [] } }],
             Funcs := [] } := by decide

/-- C6: the spec claims the exponent marker also works for hexadecimal
literals, e.g. that `0xabc.defe-2` lexes as one NUMBER token. It cannot:
`e`/`E` are hexadecimal digits, so the fractional digit run of a hex
literal absorbs the would-be marker, `accept("eE")` then fails on the
sign, and the literal ends at `0xabc.defe`; the following `-` violates
the right-delimiter rule and the lexer stops with an error token (the
repository's own test table lists exactly this input commented out under
a FIXME). -/
theorem c6_hex_exponent_rejected :
    lexStr "0xabc.defe-2" =
      [⟨.NUMBER, "0xabc.defe"⟩, ⟨.ERROR, msgDelim (some '-')⟩] := by decide

/-- C10: an embedded export or import clause whose STRING token is not
decodable by strconv.Unquote — such as the lexer-accepted two-hex-digit
escape in `"\5A"` — has its decoding error discarded: parseFunc succeeds
without any diagnostic and stores the empty string as the export name
(respectively the import name). -/
theorem c10_undecodable_string_swallowed :
    unquote "\"\\5A\"" = none ∧
    lexStr "(export \"\\5A\"))" =
      [⟨.LPAREN, "("⟩, ⟨.EXPORT, "export"⟩, ⟨.STRING, "\"\\5A\""⟩,
       ⟨.RPAREN, ")"⟩, ⟨.RPAREN, ")"⟩] ∧
    runParseFuncMod (lexStr "(export \"\\5A\"))") =
      some { Name := "", Signature := some { TypeRef := none, Params := [], Results := [] },
             Locals := [], Export := some ⟨""⟩, Import := none } ∧
    runParseFuncMod (lexStr "(import \"env\" \"\\5A\"))") =
      some { Name := "", Signature := some { TypeRef := none, Params := [], Results := [] },
             Locals := [], Export := none, Import := some ⟨"env", ""⟩ } := by decide

/-- C8: for every reserved keyword k in the keyword table, lexing
k ++ "_s" (respectively k ++ "_u") yields exactly three tokens: the
keyword token with text k, an UNDERSCORE token with text "_", and the
sign token S with text "s" (respectively U with text "u"). -/
theorem c8_keyword_suffix_split (k : String) (t : TokType) (h : (k, t) ∈ atom) :
    lexStr (k ++ "_s") = [⟨t, k⟩, ⟨.UNDERSCORE, "_"⟩, ⟨.S, "s"⟩] ∧
    lexStr (k ++ "_u") = [⟨t, k⟩, ⟨.UNDERSCORE, "_"⟩, ⟨.U, "u"⟩] := by
  have hAll : ∀ kt ∈ atom,
      lexStr (kt.1 ++ "_s") = [⟨kt.2, kt.1⟩, ⟨.UNDERSCORE, "_"⟩, ⟨.S, "s"⟩] ∧
      lexStr (kt.1 ++ "_u") = [⟨kt.2, kt.1⟩, ⟨.UNDERSCORE, "_"⟩, ⟨.U, "u"⟩] := by decide
  exact hAll (k, t) h

/-- C8 witness: the theorem applied to the keyword `trunc`. -/
theorem c8_witness :
    ("trunc", TokType.TRUNC) ∈ atom ∧
    (lexStr "trunc_s" = [⟨.TRUNC, "trunc"⟩, ⟨.UNDERSCORE, "_"⟩, ⟨.S, "s"⟩] ∧
     lexStr "trunc_u" = [⟨.TRUNC, "trunc"⟩, ⟨.UNDERSCORE, "_"⟩, ⟨.U, "u"⟩]) :=
  ⟨by decide, c8_keyword_suffix_split "trunc" .TRUNC (by decide)⟩

/-- Index of the first element after a prefix. -/
theorem getElem?_append_cons {α : Type} : ∀ (pre : List α) (a : α) (l : List α),
    (pre ++ a :: l)[pre.length]? = some a
  | [], _, _ => by simp
  | p :: pre, a, l => by
    show ((p :: pre) ++ a :: l)[(p :: pre).length]? = some a
    rw [List.cons_append, List.length_cons, List.getElem?_cons_succ]
    exact getElem?_append_cons pre a l

/-- Reading at an in-range cursor position yields that token and advances
the cursor. -/
theorem ParserSt.read_at (buf : List Tok) (i : Nat) (t : Tok) (h : buf[i]? = some t) :
    ParserSt.read ⟨buf, i⟩ = .ok (t, ⟨buf, i + 1⟩) := by
  have hlt : i < buf.length := by
    by_contra hge
    rw [List.getElem?_eq_none (by omega)] at h
    exact Option.noConfusion h
  unfold ParserSt.read
  dsimp only
  rw [if_neg (by omega), h]

/-- accept consumes a token whose kind is in the valid set. -/
theorem ParserSt.accept_yes (buf : List Tok) (i : Nat) (t : Tok) (valid : List TokType)
    (h : buf[i]? = some t) (ht : t.typ ∈ valid) :
    ParserSt.accept ⟨buf, i⟩ valid = .ok (some t, ⟨buf, i + 1⟩) := by
  simp [ParserSt.accept, ParserSt.read_at buf i t h, ht, Bind.bind, Except.bind]

/-- accept rewinds on a token whose kind is outside the valid set. -/
theorem ParserSt.accept_no (buf : List Tok) (i : Nat) (t : Tok) (valid : List TokType)
    (h : buf[i]? = some t) (ht : t.typ ∉ valid) :
    ParserSt.accept ⟨buf, i⟩ valid = .ok (none, ⟨buf, i⟩) := by
  simp [ParserSt.accept, ParserSt.read_at buf i t h, ht, Bind.bind, Except.bind,
        ParserSt.unread]

/-- A two-kind match that succeeds advances the cursor past both tokens. -/
theorem ParserSt.matchTok2_yes (buf : List Tok) (i : Nat) (a b : TokType) (t1 t2 : Tok)
    (h1 : buf[i]? = some t1) (h2 : buf[i + 1]? = some t2)
    (e1 : t1.typ = a) (e2 : t2.typ = b) :
    ParserSt.matchTok ⟨buf, i⟩ [a, b] = .ok (true, ⟨buf, i + 2⟩) := by
  simp [ParserSt.matchTok, ParserSt.matchAux, ParserSt.read_at buf i t1 h1,
        ParserSt.read_at buf (i + 1) t2 h2, e1, e2, Bind.bind, Except.bind]

/-- A two-kind match whose first token mismatches rewinds fully. -/
theorem ParserSt.matchTok2_no (buf : List Tok) (i : Nat) (a b : TokType) (t1 : Tok)
    (h1 : buf[i]? = some t1) (e1 : t1.typ ≠ a) :
    ParserSt.matchTok ⟨buf, i⟩ [a, b] = .ok (false, ⟨buf, i⟩) := by
  simp [ParserSt.matchTok, ParserSt.matchAux, ParserSt.read_at buf i t1 h1, e1,
        ParserSt.unreadTimes, ParserSt.unread, Bind.bind, Except.bind]

/-- Value-type kinds are not the NAME kind. -/
theorem typeKinds_ne_name {t : Tok} (h : t.typ ∈ typeKinds) : t.typ ≠ .NAME := by
  simp [typeKinds] at h
  rcases h with h | h | h | h <;> simp [h]

/-- The inner loop of parseLocalList consumes a run of value-type tokens,
stops at the first non-type token without consuming it, and accumulates
one unnamed Local per consumed type. -/
theorem localInner_run (ts : List Tok) :
    ∀ (fuel : Nat) (acc : List Local) (pre rest : List Tok) (stop : Tok),
    stop.typ ∉ typeKinds → (∀ t ∈ ts, t.typ ∈ typeKinds) → ts.length < fuel →
    localInner fuel acc ⟨pre ++ ts ++ stop :: rest, pre.length⟩ =
      .ok (acc ++ ts.map (fun t => ⟨"", t.typ⟩),
           ⟨pre ++ ts ++ stop :: rest, pre.length + ts.length⟩) := by
  induction ts with
  | nil =>
    intro fuel acc pre rest stop hstop _ hfuel
    obtain ⟨f, rfl⟩ : ∃ f, fuel = f + 1 := ⟨fuel - 1, by omega⟩
    have hacc : ParserSt.accept ⟨pre ++ stop :: rest, pre.length⟩ typeKinds =
        .ok (none, ⟨pre ++ stop :: rest, pre.length⟩) :=
      ParserSt.accept_no _ pre.length stop typeKinds
        (getElem?_append_cons pre stop rest) hstop
    simp [localInner, ParserSt.acceptIsType, hacc, Bind.bind, Except.bind]
  | cons t ts ih =>
    intro fuel acc pre rest stop hstop hts hfuel
    obtain ⟨f, rfl⟩ : ∃ f, fuel = f + 1 := ⟨fuel - 1, by omega⟩
    have hidx : (pre ++ t :: ts ++ stop :: rest)[pre.length]? = some t := by
      simpa using getElem?_append_cons pre t (ts ++ stop :: rest)
    have hacc := ParserSt.accept_yes _ pre.length t typeKinds hidx (hts t (by simp))
    have key := ih f (acc ++ [⟨"", t.typ⟩]) (pre ++ [t]) rest stop hstop
      (fun x hx => hts x (by simp [hx])) (by simp at hfuel ⊢; omega)
    simp only [localInner, ParserSt.acceptIsType, hacc, Bind.bind, Except.bind]
    simpa [Nat.add_comm, Nat.add_assoc, Nat.add_left_comm] using key

/-- C9: parseLocalList on a buffer beginning with an unnamed local clause
`( local <type>* )` (followed by anything, including further local
clauses) returns the empty list: the consumed types land in the inner
shadowed slice, which is discarded, and the clause's closing right
parenthesis is never consumed — the final cursor rests on it. -/
theorem c9_parseLocalList_discards (lp lo rp : Tok) (ts rest : List Tok) (fuel : Nat)
    (hlp : lp.typ = .LPAREN) (hlo : lo.typ = .LOCAL) (hrp : rp.typ = .RPAREN)
    (hts : ∀ t ∈ ts, t.typ ∈ typeKinds) (hfuel : ts.length + 2 ≤ fuel) :
    parseLocalList fuel ⟨lp :: lo :: ts ++ rp :: rest, 0⟩ =
      .ok ([], ⟨lp :: lo :: ts ++ rp :: rest, 2 + ts.length⟩) := by
  obtain ⟨f2, rfl⟩ : ∃ f2, fuel = f2 + 1 + 1 := ⟨fuel - 2, by omega⟩
  have h0 : (lp :: lo :: (ts ++ rp :: rest))[0]? = some lp := by simp
  have h1 : (lp :: lo :: (ts ++ rp :: rest))[1]? = some lo := by simp
  have hm := ParserSt.matchTok2_yes (lp :: lo :: (ts ++ rp :: rest)) 0 .LPAREN .LOCAL
    lp lo h0 h1 hlp hlo
  have hhead : ∃ u, (lp :: lo :: (ts ++ rp :: rest))[2]? = some u ∧
      u.typ ≠ TokType.NAME := by
    cases ts with
    | nil => exact ⟨rp, by simp, by simp [hrp]⟩
    | cons t ts2 => exact ⟨t, by simp, typeKinds_ne_name (hts t (by simp))⟩
  obtain ⟨u, hu, hun⟩ := hhead
  have haccn := ParserSt.accept_no (lp :: lo :: (ts ++ rp :: rest)) 2 u [.NAME] hu
    (by simp [hun])
  have hinner := localInner_run ts (f2 + 1) [] [lp, lo] rest rp
    (by simp [typeKinds, hrp]) hts (by omega)
  have hinner2 : localInner (f2 + 1) [] ⟨lp :: lo :: (ts ++ rp :: rest), 2⟩ =
      .ok (ts.map fun t => ⟨"", t.typ⟩,
           ⟨lp :: lo :: (ts ++ rp :: rest), 2 + ts.length⟩) := by
    simpa [Nat.add_comm] using hinner
  have hrpidx : (lp :: lo :: (ts ++ rp :: rest))[2 + ts.length]? = some rp := by
    have h := getElem?_append_cons (lp :: lo :: ts) rp rest
    have hlen : (lp :: lo :: ts).length = 2 + ts.length := by simp; omega
    rw [hlen] at h
    simpa using h
  have hm2 := ParserSt.matchTok2_no (lp :: lo :: (ts ++ rp :: rest)) (2 + ts.length)
    .LPAREN .LOCAL rp hrpidx (by simp [hrp])
  simp [parseLocalList, parseLocalListLoop, hm, haccn, hinner2, hm2,
    Bind.bind, Except.bind]

/-- C9 witness: the theorem applied to the token sequence of
`( local i32 i64 )` — the result is the empty local list with the cursor
on the closing parenthesis (position 4 of 5). -/
theorem c9_witness :
    parseLocalList 4 ⟨[⟨.LPAREN, "("⟩, ⟨.LOCAL, "local"⟩, ⟨.I32, "i32"⟩,
        ⟨.I64, "i64"⟩, ⟨.RPAREN, ")"⟩], 0⟩ =
      .ok ([], ⟨[⟨.LPAREN, "("⟩, ⟨.LOCAL, "local"⟩, ⟨.I32, "i32"⟩,
        ⟨.I64, "i64"⟩, ⟨.RPAREN, ")"⟩], 4⟩) := by
  have h := c9_parseLocalList_discards ⟨.LPAREN, "("⟩ ⟨.LOCAL, "local"⟩ ⟨.RPAREN, ")"⟩
    [⟨.I32, "i32"⟩, ⟨.I64, "i64"⟩] [] 4 rfl rfl rfl (by decide) (by decide)
  simpa using h

/-- lexString on an unterminated literal: as long as the scanned body is
well formed (no quote, and every backslash escape complete), reaching a
raw newline or the end of input produces exactly one unclosed-string
error token. -/
theorem lexStringF_unterminated (k : LexCont) :
    ∀ (s : List Char), StringBody s → ∀ (tail : List Char),
      (tail = [] ∨ ∃ r, tail = '\n' :: r) → ∀ (pend : List Char) (toks : List Tok),
      lexStringF k pend (s ++ tail) toks = some (toks ++ [errTok msgUnclosed]) := by
  intro s hs
  induction hs with
  | nil =>
    intro tail htail pend toks
    rcases htail with rfl | ⟨r, rfl⟩
    · rfl
    · show lexStringF k pend ('\n' :: r) toks = _
      unfold lexStringF
      rw [if_neg (by decide : ¬('\n' = dqChar)), if_neg (by decide : ¬('\n' = '\\')),
        if_pos rfl]
  | plain c rest h1 h2 h3 h4 _ ih =>
    intro tail htail pend toks
    show lexStringF k pend (c :: (rest ++ tail)) toks = _
    unfold lexStringF
    rw [if_neg h1, if_neg h2, if_neg h3, if_neg h4]
    exact ih tail htail (pend ++ [c]) toks
  | esc1 e rest he _ ih =>
    intro tail htail pend toks
    show lexStringF k pend ('\\' :: e :: (rest ++ tail)) toks = _
    unfold lexStringF
    rw [if_neg (by decide : ¬('\\' = dqChar)), if_pos rfl]
    dsimp only
    rw [if_pos he]
    exact ih tail htail (pend ++ ['\\', e]) toks
  | esc2 e h2c rest hne hh1 hh2 _ ih =>
    intro tail htail pend toks
    show lexStringF k pend ('\\' :: e :: h2c :: (rest ++ tail)) toks = _
    unfold lexStringF
    rw [if_neg (by decide : ¬('\\' = dqChar)), if_pos rfl]
    dsimp only
    rw [if_neg (by simp [hne]), if_pos hh1]
    rw [if_pos hh2]
    exact ih tail htail (pend ++ ['\\', e, h2c]) toks

/-- lexAny dispatch on a double quote enters the string scanner with the
quote as pending text. -/
theorem lexAnyF_on_quote (fuel : Nat) (cs : List Char) (toks : List Tok) :
    lexAnyF (fuel + 1) (dqChar :: cs) toks = lexStringF (lexAnyF fuel) [dqChar] cs toks := rfl

/-- C7 (amended): an input that opens a string literal and reaches a raw
newline or the end of input before a closing quote yields a single ERROR
token with message "unclosed string literal", provided the scanned body
contains no backslash escape cut short by the terminator (StringBody);
with a trailing backslash the lexer reports "illegal escape in string
literal" instead (see the counterexample). -/
theorem c7_unclosed_string (s : List Char) (hs : StringBody s) (r : List Char) :
    lex (dqChar :: s) = [errTok msgUnclosed] ∧
    lex (dqChar :: (s ++ '\n' :: r)) = [errTok msgUnclosed] := by
  constructor
  · have hrun := lexStringF_unterminated (lexAnyF (dqChar :: s).length) s hs []
      (Or.inl rfl) [dqChar] []
    rw [List.append_nil] at hrun
    rw [lex, lexAnyF_on_quote, hrun]
    rfl
  · have hrun := lexStringF_unterminated (lexAnyF (dqChar :: (s ++ '\n' :: r)).length) s hs
      ('\n' :: r) (Or.inr ⟨r, rfl⟩) [dqChar] []
    rw [lex, lexAnyF_on_quote, hrun]
    rfl

/-- C7 witness: the theorem applied to the two-character body "ab": both
the eof-terminated and the newline-terminated unterminated strings lex to
exactly the unclosed-string error token. -/
theorem c7_witness :
    lex (dqChar :: ['a', 'b']) = [errTok msgUnclosed] ∧
    lex (dqChar :: (['a', 'b'] ++ '\n' :: [])) = [errTok msgUnclosed] :=
  c7_unclosed_string ['a', 'b']
    (StringBody.plain 'a' ['b'] (by decide) (by decide) (by decide) (by decide)
      (StringBody.plain 'b' [] (by decide) (by decide) (by decide) (by decide)
        StringBody.nil)) []

/-- C7 counterexample: the input consisting of a quote and a single
backslash is an unterminated string literal (end of input before any
closing quote), yet its single error token carries the illegal-escape
message, not "unclosed string literal" — refuting the claim's universal
"always", which explicitly included trailing-backslash inputs. -/
theorem c7_counterexample :
    lexStr "\"\\" = [⟨.ERROR, msgIllegalEscape⟩] ∧ msgIllegalEscape ≠ msgUnclosed := by
  constructor
  · decide
  · decide

theorem saneO_some {ts : List Tok} (h : Sane ts) : SaneO (some ts) := h

theorem sane_err (toks : List Tok) (h : errFree toks) (msg : String) :
    Sane (toks ++ [errTok msg]) :=
  Or.inr ⟨toks, errTok msg, rfl, rfl, h⟩

theorem errFree_push (toks : List Tok) (h : errFree toks) (t : Tok) (ht : t.typ ≠ .ERROR) :
    errFree (toks ++ [t]) := by
  intro x hx
  rcases List.mem_append.mp hx with h1 | h2
  · exact h x h1
  · simp at h2
    subst h2
    exact ht

theorem errFree_push3 (toks : List Tok) (h : errFree toks) (t1 t2 t3 : Tok)
    (h1 : t1.typ ≠ .ERROR) (h2 : t2.typ ≠ .ERROR) (h3 : t3.typ ≠ .ERROR) :
    errFree (toks ++ [t1, t2, t3]) := by
  intro x hx
  rcases List.mem_append.mp hx with hl | hr
  · exact h x hl
  · simp at hr
    rcases hr with rfl | rfl | rfl <;> assumption

theorem lookup_ne_error : ∀ (l : List (String × TokType)),
    (∀ kt ∈ l, kt.2 ≠ TokType.ERROR) → ∀ (s : String) (typ : TokType),
    l.lookup s = some typ → typ ≠ TokType.ERROR
  | [], _, s, typ, h => by simp [List.lookup] at h
  | (a, b) :: l, hall, s, typ, h => by
    rw [List.lookup] at h
    cases hc : s == a with
    | true =>
      rw [hc] at h
      simp at h
      subst h
      exact hall (a, b) (by simp)
    | false =>
      rw [hc] at h
      exact lookup_ne_error l (fun kt hkt => hall kt (by simp [hkt])) s typ h

theorem atom_lookup_ne_error (s : String) (typ : TokType) (h : atom.lookup s = some typ) :
    typ ≠ TokType.ERROR :=
  lookup_ne_error atom (by decide) s typ h

theorem afterDelimF_sane (k : LexCont)
    (hk : ∀ cs toks, errFree toks → SaneO (k cs toks)) :
    ∀ (cs : List Char) (toks : List Tok), errFree toks → SaneO (afterDelimF k cs toks) := by
  intro cs toks h
  cases cs with
  | nil => exact hk [] toks h
  | cons c rest =>
    unfold afterDelimF
    try dsimp only
    split
    · exact hk _ _ h
    · exact saneO_some (sane_err _ h _)

theorem lexAtomF_sane (k : LexCont)
    (hk : ∀ cs toks, errFree toks → SaneO (k cs toks))
    (first : Char) (cs : List Char) (toks : List Tok) (h : errFree toks) :
    SaneO (lexAtomF k first cs toks) := by
  unfold lexAtomF
  try dsimp only
  split
  · split
    · next typ heq =>
      exact hk _ _ (errFree_push3 _ h _ _ _ (atom_lookup_ne_error _ _ heq)
        (by simp) (by simp))
    · exact saneO_some (sane_err _ h _)
  · split
    · split
      · next typ heq =>
        exact hk _ _ (errFree_push3 _ h _ _ _ (atom_lookup_ne_error _ _ heq)
          (by simp) (by simp))
      · exact saneO_some (sane_err _ h _)
    · split
      · next typ heq =>
        exact hk _ _ (errFree_push _ h _ (atom_lookup_ne_error _ _ heq))
      · exact saneO_some (sane_err _ h _)

theorem lexNameF_sane (k : LexCont)
    (hk : ∀ cs toks, errFree toks → SaneO (k cs toks))
    (cs : List Char) (toks : List Tok) (h : errFree toks) :
    SaneO (lexNameF k cs toks) := by
  cases cs with
  | nil => exact saneO_some (sane_err _ h _)
  | cons c rest =>
    unfold lexNameF
    try dsimp only
    split
    · exact afterDelimF_sane k hk _ _ (errFree_push _ h _ (by simp))
    · exact saneO_some (sane_err _ h _)

theorem lexNumberF_sane (k : LexCont)
    (hk : ∀ cs toks, errFree toks → SaneO (k cs toks))
    (cs : List Char) (toks : List Tok) (h : errFree toks) :
    SaneO (lexNumberF k cs toks) := by
  unfold lexNumberF
  try dsimp only
  split
  · exact afterDelimF_sane k hk _ _ (errFree_push _ h _ (by simp))
  · exact saneO_some (sane_err _ h _)

theorem lexStringF_sane (k : LexCont)
    (hk : ∀ cs toks, errFree toks → SaneO (k cs toks)) :
    ∀ (m : Nat) (cs : List Char), cs.length ≤ m → ∀ (pend : List Char) (toks : List Tok),
      errFree toks → SaneO (lexStringF k pend cs toks) := by
  intro m
  induction m with
  | zero =>
    intro cs hm pend toks h
    have hnil : cs = [] := List.eq_nil_of_length_eq_zero (by omega)
    subst hnil
    exact saneO_some (sane_err _ h _)
  | succ m ih =>
    intro cs hm pend toks h
    rcases cs with _ | ⟨c, rest⟩
    · exact saneO_some (sane_err _ h _)
    · by_cases hdq : c = dqChar
      · subst hdq
        unfold lexStringF
        try dsimp only
        rw [if_pos rfl]
        exact afterDelimF_sane k hk _ _ (errFree_push _ h _ (by simp))
      · by_cases hbs : c = '\\'
        · subst hbs
          rcases rest with _ | ⟨e, rest2⟩
          · exact saneO_some (sane_err _ h _)
          · unfold lexStringF
            try dsimp only
            rw [if_neg hdq, if_pos rfl]
            try dsimp only
            by_cases hesc : containsRune escAlpha e = true
            · rw [if_pos hesc]
              exact ih rest2 (by simp at hm ⊢; omega) _ _ h
            · rw [if_neg hesc]
              by_cases hhex : containsRune hexDigits e = true
              · rw [if_pos hhex]
                try dsimp only
                rcases rest2 with _ | ⟨h2, rest3⟩
                · exact saneO_some (sane_err _ h _)
                · try dsimp only
                  by_cases hh2 : containsRune hexDigits h2 = true
                  · rw [if_pos hh2]
                    exact ih rest3 (by simp at hm ⊢; omega) _ _ h
                  · rw [if_neg hh2]
                    exact saneO_some (sane_err _ h _)
              · rw [if_neg hhex]
                exact saneO_some (sane_err _ h _)
        · by_cases hnl : c = '\n'
          · subst hnl
            unfold lexStringF
            try dsimp only
            rw [if_neg hdq, if_neg hbs, if_pos rfl]
            exact saneO_some (sane_err _ h _)
          · by_cases hctl : (c.toNat ≤ 0x1f ∨ c.toNat = 0x7f)
            · unfold lexStringF
              try dsimp only
              rw [if_neg hdq, if_neg hbs, if_neg hnl, if_pos hctl]
              exact saneO_some (sane_err _ h _)
            · unfold lexStringF
              try dsimp only
              rw [if_neg hdq, if_neg hbs, if_neg hnl, if_neg hctl]
              exact ih rest (by simp at hm ⊢; omega) _ _ h

theorem lexAnyF_sane : ∀ (fuel : Nat) (cs : List Char) (toks : List Tok),
    errFree toks → SaneO (lexAnyF fuel cs toks) := by
  intro fuel
  induction fuel with
  | zero => intro cs toks h; trivial
  | succ fuel ih =>
    intro cs toks h
    unfold lexAnyF
    cases hdw : cs.dropWhile (containsRune "\t ") with
    | nil => exact saneO_some (Or.inl h)
    | cons c rest =>
      try dsimp only
      by_cases h1 : containsRune letters c = true
      · rw [if_pos h1]
        exact lexAtomF_sane (lexAnyF fuel) ih c rest toks h
      · rw [if_neg h1]
        by_cases h2 : c = '('
        · rw [if_pos h2]
          exact ih rest _ (errFree_push _ h _ (by simp))
        · rw [if_neg h2]
          by_cases h3 : c = ')'
          · rw [if_pos h3]
            exact ih rest _ (errFree_push _ h _ (by simp))
          · rw [if_neg h3]
            by_cases h4 : c = '_'
            · rw [if_pos h4]
              exact ih rest _ (errFree_push _ h _ (by simp))
            · rw [if_neg h4]
              by_cases h5 : c = '='
              · rw [if_pos h5]
                exact ih rest _ (errFree_push _ h _ (by simp))
              · rw [if_neg h5]
                by_cases h6 : c = '/'
                · rw [if_pos h6]
                  exact ih rest _ (errFree_push _ h _ (by simp))
                · rw [if_neg h6]
                  by_cases h7 : c = '.'
                  · rw [if_pos h7]
                    exact ih rest _ (errFree_push _ h _ (by simp))
                  · rw [if_neg h7]
                    by_cases h8 : c = '$'
                    · rw [if_pos h8]
                      exact lexNameF_sane (lexAnyF fuel) ih rest toks h
                    · rw [if_neg h8]
                      by_cases h9 : c = dqChar
                      · rw [if_pos h9]
                        exact lexStringF_sane (lexAnyF fuel) ih rest.length rest
                          (Nat.le_refl _) [c] toks h
                      · rw [if_neg h9]
                        by_cases h10 : c = '+' ∨ c = '-' ∨ ('0' ≤ c ∧ c ≤ '9')
                        · rw [if_pos h10]
                          exact lexNumberF_sane (lexAnyF fuel) ih (c :: rest) toks h
                        · rw [if_neg h10]
                          by_cases h11 : c = '\n'
                          · rw [if_pos h11]
                            exact ih rest toks h
                          · rw [if_neg h11]
                            exact saneO_some (sane_err _ h _)

theorem len_dropWhile_le (p : Char → Bool) : ∀ (l : List Char),
    (l.dropWhile p).length ≤ l.length
  | [] => by simp
  | c :: l => by
    rw [List.dropWhile_cons]
    split
    · exact Nat.le_trans (len_dropWhile_le p l) (by simp)
    · simp

theorem acceptL_part (v : String) (cs : List Char) :
    (acceptL v cs).1 ++ (acceptL v cs).2 = cs := by
  cases cs with
  | nil => rfl
  | cons c rest =>
    unfold acceptL
    try dsimp only
    split <;> simp

theorem acceptL_cons_pos (v : String) (c : Char) (rest : List Char)
    (h : containsRune v c = true) : acceptL v (c :: rest) = ([c], rest) := by
  unfold acceptL
  try dsimp only
  rw [if_pos h]

theorem acceptL_cons_neg (v : String) (c : Char) (rest : List Char)
    (h : containsRune v c = false) : acceptL v (c :: rest) = ([], c :: rest) := by
  unfold acceptL
  try dsimp only
  rw [if_neg (by simp [h])]

theorem scanNum_partition (cs : List Char) :
    (scanNum cs).1.1 ++ (scanNum cs).1.2 = cs := by
  unfold scanNum
  try dsimp only
  split_ifs <;>
    simp [acceptL_part, List.takeWhile_append_dropWhile, List.append_assoc]

theorem scanNum_consumed_sign (c : Char) (rest : List Char)
    (h : containsRune "+-" c = true) : (scanNum (c :: rest)).1.1 ≠ [] := by
  unfold scanNum
  rw [acceptL_cons_pos _ _ _ h]
  try dsimp only
  simp

theorem scanNum_consumed_digit (c : Char) (rest : List Char)
    (hpm : containsRune "+-" c = false) (hdg : containsRune digits c = true) :
    (scanNum (c :: rest)).1.1 ≠ [] := by
  unfold scanNum
  rw [acceptL_cons_neg _ _ _ hpm]
  try dsimp only
  by_cases hz : containsRune "0" c = true
  · rw [acceptL_cons_pos _ _ _ hz]
    try dsimp only
    simp
  · rw [acceptL_cons_neg _ _ _ (by revert hz; cases containsRune "0" c <;> simp)]
    simp [List.takeWhile_cons, hdg]

theorem char_eq_of_toNat (c d : Char) (n : Nat) (h : c.toNat = n) (hd : d.toNat = n) :
    c = d := by
  have h2 : Char.ofNat c.toNat = Char.ofNat d.toNat := by rw [h, hd]
  rwa [Char.ofNat_toNat, Char.ofNat_toNat] at h2

theorem digit_cases (c : Char) (h1 : '0' ≤ c) (h2 : c ≤ '9') :
    c = '0' ∨ c = '1' ∨ c = '2' ∨ c = '3' ∨ c = '4' ∨ c = '5' ∨ c = '6' ∨
    c = '7' ∨ c = '8' ∨ c = '9' := by
  have hn1 : 48 ≤ c.toNat := h1
  have hn2 : c.toNat ≤ 57 := h2
  have hd : c.toNat = 48 ∨ c.toNat = 49 ∨ c.toNat = 50 ∨ c.toNat = 51 ∨ c.toNat = 52 ∨
      c.toNat = 53 ∨ c.toNat = 54 ∨ c.toNat = 55 ∨ c.toNat = 56 ∨ c.toNat = 57 := by omega
  rcases hd with h | h | h | h | h | h | h | h | h | h
  · exact Or.inl (char_eq_of_toNat c '0' 48 h rfl)
  · exact Or.inr (Or.inl (char_eq_of_toNat c '1' 49 h rfl))
  · exact Or.inr (Or.inr (Or.inl (char_eq_of_toNat c '2' 50 h rfl)))
  · exact Or.inr (Or.inr (Or.inr (Or.inl (char_eq_of_toNat c '3' 51 h rfl))))
  · exact Or.inr (Or.inr (Or.inr (Or.inr (Or.inl (char_eq_of_toNat c '4' 52 h rfl)))))
  · exact Or.inr (Or.inr (Or.inr (Or.inr (Or.inr (Or.inl
      (char_eq_of_toNat c '5' 53 h rfl))))))
  · exact Or.inr (Or.inr (Or.inr (Or.inr (Or.inr (Or.inr (Or.inl
      (char_eq_of_toNat c '6' 54 h rfl)))))))
  · exact Or.inr (Or.inr (Or.inr (Or.inr (Or.inr (Or.inr (Or.inr (Or.inl
      (char_eq_of_toNat c '7' 55 h rfl))))))))
  · exact Or.inr (Or.inr (Or.inr (Or.inr (Or.inr (Or.inr (Or.inr (Or.inr (Or.inl
      (char_eq_of_toNat c '8' 56 h rfl)))))))))
  · exact Or.inr (Or.inr (Or.inr (Or.inr (Or.inr (Or.inr (Or.inr (Or.inr (Or.inr
      (char_eq_of_toNat c '9' 57 h rfl)))))))))

theorem scanNum_lt (c : Char) (rest : List Char)
    (h : c = '+' ∨ c = '-' ∨ ('0' ≤ c ∧ c ≤ '9')) :
    ((scanNum (c :: rest)).1.2).length < (c :: rest).length := by
  have hpart := congrArg List.length (scanNum_partition (c :: rest))
  rw [List.length_append] at hpart
  have hne : (scanNum (c :: rest)).1.1 ≠ [] := by
    rcases h with rfl | rfl | ⟨h1, h2⟩
    · exact scanNum_consumed_sign _ _ (by decide)
    · exact scanNum_consumed_sign _ _ (by decide)
    · rcases digit_cases c h1 h2 with rfl | rfl | rfl | rfl | rfl | rfl | rfl | rfl | rfl | rfl <;>
        exact scanNum_consumed_digit _ _ (by decide) (by decide)
  have hpos : 0 < (scanNum (c :: rest)).1.1.length := List.length_pos.mpr hne
  omega

theorem afterDelimF_isSome (k : LexCont) (n : Nat)
    (hk : ∀ cs toks, cs.length < n → (k cs toks).isSome) :
    ∀ (cs : List Char) (toks : List Tok), cs.length < n →
      (afterDelimF k cs toks).isSome := by
  intro cs toks h
  cases cs with
  | nil => exact hk [] toks h
  | cons c rest =>
    unfold afterDelimF
    try dsimp only
    split
    · exact hk _ _ h
    · simp

theorem lexStringF_isSome (k : LexCont) (n : Nat)
    (hk : ∀ cs toks, cs.length < n → (k cs toks).isSome) :
    ∀ (m : Nat) (cs : List Char), cs.length ≤ m → cs.length < n →
      ∀ (pend : List Char) (toks : List Tok), (lexStringF k pend cs toks).isSome := by
  intro m
  induction m with
  | zero =>
    intro cs hm hn pend toks
    have hnil : cs = [] := List.eq_nil_of_length_eq_zero (by omega)
    subst hnil
    simp [lexStringF]
  | succ m ih =>
    intro cs hm hn pend toks
    rcases cs with _ | ⟨c, rest⟩
    · simp [lexStringF]
    · by_cases hdq : c = dqChar
      · subst hdq
        unfold lexStringF
        try dsimp only
        rw [if_pos rfl]
        exact afterDelimF_isSome k n hk _ _ (by simp at hn ⊢; omega)
      · by_cases hbs : c = '\\'
        · subst hbs
          rcases rest with _ | ⟨e, rest2⟩
          · simp [lexStringF, hdq]
          · unfold lexStringF
            try dsimp only
            rw [if_neg hdq, if_pos rfl]
            try dsimp only
            by_cases hesc : containsRune escAlpha e = true
            · rw [if_pos hesc]
              exact ih rest2 (by simp at hm ⊢; omega) (by simp at hn ⊢; omega) _ _
            · rw [if_neg hesc]
              by_cases hhex : containsRune hexDigits e = true
              · rw [if_pos hhex]
                try dsimp only
                rcases rest2 with _ | ⟨h2, rest3⟩
                · simp
                · try dsimp only
                  by_cases hh2 : containsRune hexDigits h2 = true
                  · rw [if_pos hh2]
                    exact ih rest3 (by simp at hm ⊢; omega) (by simp at hn ⊢; omega) _ _
                  · rw [if_neg hh2]
                    simp
              · rw [if_neg hhex]
                simp
        · by_cases hnl : c = '\n'
          · subst hnl
            unfold lexStringF
            try dsimp only
            rw [if_neg hdq, if_neg hbs, if_pos rfl]
            simp
          · by_cases hctl : (c.toNat ≤ 0x1f ∨ c.toNat = 0x7f)
            · unfold lexStringF
              try dsimp only
              rw [if_neg hdq, if_neg hbs, if_neg hnl, if_pos hctl]
              simp
            · unfold lexStringF
              try dsimp only
              rw [if_neg hdq, if_neg hbs, if_neg hnl, if_neg hctl]
              exact ih rest (by simp at hm ⊢; omega) (by simp at hn ⊢; omega) _ _

theorem lexNameF_isSome (k : LexCont) (n : Nat)
    (hk : ∀ cs toks, cs.length < n → (k cs toks).isSome)
    (cs : List Char) (toks : List Tok) (h : cs.length < n) :
    (lexNameF k cs toks).isSome := by
  cases cs with
  | nil => simp [lexNameF]
  | cons c rest =>
    unfold lexNameF
    try dsimp only
    split
    · apply afterDelimF_isSome k n hk
      have := len_dropWhile_le (containsRune nameAlpha) rest
      simp at h
      omega
    · simp

theorem lexAtomF_isSome (k : LexCont) (n : Nat)
    (hk : ∀ cs toks, cs.length < n → (k cs toks).isSome)
    (first : Char) (cs : List Char) (toks : List Tok) (h : cs.length < n) :
    (lexAtomF k first cs toks).isSome := by
  have hle : (cs.dropWhile (containsRune atomAlpha)).length < n :=
    Nat.lt_of_le_of_lt (len_dropWhile_le _ cs) h
  unfold lexAtomF
  try dsimp only
  split
  · split
    · exact hk _ _ hle
    · simp
  · split
    · split
      · exact hk _ _ hle
      · simp
    · split
      · exact hk _ _ hle
      · simp

theorem lexNumberF_isSome (k : LexCont) (n : Nat)
    (hk : ∀ cs toks, cs.length < n → (k cs toks).isSome)
    (c : Char) (rest : List Char) (toks : List Tok)
    (hc : c = '+' ∨ c = '-' ∨ ('0' ≤ c ∧ c ≤ '9'))
    (h : rest.length < n) : (lexNumberF k (c :: rest) toks).isSome := by
  unfold lexNumberF
  try dsimp only
  split
  · apply afterDelimF_isSome k n hk
    have := scanNum_lt c rest hc
    simp at this
    omega
  · simp

theorem lexAnyF_isSome : ∀ (fuel : Nat) (cs : List Char) (toks : List Tok),
    cs.length < fuel → (lexAnyF fuel cs toks).isSome := by
  intro fuel
  induction fuel with
  | zero => intro cs toks h; omega
  | succ fuel ih =>
    intro cs toks h
    unfold lexAnyF
    have hdw := len_dropWhile_le (containsRune "\t ") cs
    cases hcs : cs.dropWhile (containsRune "\t ") with
    | nil => simp
    | cons c rest =>
      rw [hcs] at hdw
      have hrest : rest.length < fuel := by simp at hdw; omega
      try dsimp only
      by_cases h1 : containsRune letters c = true
      · rw [if_pos h1]
        exact lexAtomF_isSome (lexAnyF fuel) fuel ih c rest toks hrest
      · rw [if_neg h1]
        by_cases h2 : c = '('
        · rw [if_pos h2]
          exact ih rest _ hrest
        · rw [if_neg h2]
          by_cases h3 : c = ')'
          · rw [if_pos h3]
            exact ih rest _ hrest
          · rw [if_neg h3]
            by_cases h4 : c = '_'
            · rw [if_pos h4]
              exact ih rest _ hrest
            · rw [if_neg h4]
              by_cases h5 : c = '='
              · rw [if_pos h5]
                exact ih rest _ hrest
              · rw [if_neg h5]
                by_cases h6 : c = '/'
                · rw [if_pos h6]
                  exact ih rest _ hrest
                · rw [if_neg h6]
                  by_cases h7 : c = '.'
                  · rw [if_pos h7]
                    exact ih rest _ hrest
                  · rw [if_neg h7]
                    by_cases h8 : c = '$'
                    · rw [if_pos h8]
                      exact lexNameF_isSome (lexAnyF fuel) fuel ih rest toks hrest
                    · rw [if_neg h8]
                      by_cases h9 : c = dqChar
                      · rw [if_pos h9]
                        exact lexStringF_isSome (lexAnyF fuel) fuel ih rest.length rest
                          (Nat.le_refl _) hrest [c] toks
                      · rw [if_neg h9]
                        by_cases h10 : c = '+' ∨ c = '-' ∨ ('0' ≤ c ∧ c ≤ '9')
                        · rw [if_pos h10]
                          exact lexNumberF_isSome (lexAnyF fuel) fuel ih c rest toks h10 hrest
                        · rw [if_neg h10]
                          by_cases h11 : c = '\n'
                          · rw [if_pos h11]
                            exact ih rest toks hrest
                          · rw [if_neg h11]
                            simp

/-- C4: for every input character stream, lex either returns a token
sequence containing no ERROR token at all, or exactly one ERROR token and
it is the final element — no token follows an ERROR and at most one
diagnostic is produced per invocation. (Totality of the fuel-bounded
machine at fuel length+1 is `lexAnyF_isSome`; the single-error shape is
the `lexAnyF_sane` invariant.) -/
theorem c4_lexer_single_error (cs : List Char) :
    (∀ t ∈ lex cs, t.typ ≠ TokType.ERROR) ∨
    ∃ init e, lex cs = init ++ [e] ∧ e.typ = TokType.ERROR ∧
      ∀ t ∈ init, t.typ ≠ TokType.ERROR := by
  obtain ⟨ts, hts⟩ := Option.isSome_iff_exists.mp
    (lexAnyF_isSome (cs.length + 1) cs [] (by omega))
  have hsane := lexAnyF_sane (cs.length + 1) cs [] (by intro t ht; simp at ht)
  rw [hts] at hsane
  have hlex : lex cs = ts := by rw [lex, hts]; rfl
  rw [hlex]
  exact hsane

end Wasm
